import Mathlib

/-!
Verification of the trading-bot core: a shallow embedding of
src/bot/validators.py, src/bot/orders.py and src/bot/client.py,
followed by theorems settling the specification claims.

Python `Decimal` values are modelled exactly (sign, coefficient,
exponent; infinities; NaN), Python dicts as insertion-ordered
association lists, and fallible Python functions as `Except` values
distinguishing the kind of exception raised.
-/

namespace TradingBot

/-- ASCII whitespace stripped by Python `str.strip` (the inputs the
claims exercise are ASCII, so the Unicode whitespace set is not
modelled beyond these). -/
def isPyWS (c : Char) : Bool :=
  c = ' ' || c = '\t' || c = '\n' || c = '\r' || c = '\x0b' || c = '\x0c'

/-- Characters of a string with leading and trailing whitespace removed,
as Python `str.strip()`. -/
def stripWS (cs : List Char) : List Char :=
  ((cs.dropWhile isPyWS).reverse.dropWhile isPyWS).reverse

/-- Python `s.strip()`. -/
def pyStrip (s : String) : String := String.mk (stripWS s.data)

/-- Python `s.upper()` (ASCII model). -/
def pyUpper (s : String) : String := String.mk (s.data.map Char.toUpper)

/-- Is `c` an ASCII decimal digit. -/
def isDigitCh (c : Char) : Bool := '0' ≤ c && c ≤ '9'

/-- Value of an ASCII digit. -/
def digitVal (c : Char) : Nat := c.toNat - '0'.toNat

/-- Natural number denoted by a list of ASCII digits (Python `int(...)`
of a digit string; the empty list gives 0). -/
def natOfDigits (ds : List Char) : Nat :=
  ds.foldl (fun a c => a * 10 + digitVal c) 0

/-- Does `s` match the symbol pattern `^[A-Z0-9]{2,20}$` from
src/bot/validators.py line 15 (applied after strip/upper, so no
trailing-newline subtlety of `re.match` arises). -/
def isUpperAlnum (c : Char) : Bool :=
  ('A' ≤ c && c ≤ 'Z') || ('0' ≤ c && c ≤ '9')

/-- Regex test for the symbol format. -/
def symbolMatches (s : String) : Bool :=
  2 ≤ s.data.length && s.data.length ≤ 20 && s.data.all isUpperAlnum

/-- Python `decimal.Decimal` value: finite numbers as
sign × coefficient × 10^exponent (exactly the `(sign, digits, exp)`
triple CPython stores), plus infinities and NaNs.  NaN payload and NaN
sign are dropped: no claim-relevant code path observes them (every NaN
comparison raises before any formatting). -/
inductive PyDec where
  | num (neg : Bool) (coeff : Nat) (exp : Int)
  | inf (neg : Bool)
  | nan (signaling : Bool)
  deriving DecidableEq, Repr

/-- Optional leading sign of a numeric literal: returns
(isNegative, rest). -/
def parseSign : List Char → Bool × List Char
  | '+' :: r => (false, r)
  | '-' :: r => (true, r)
  | cs => (false, cs)

/-- Exponent tail of a decimal literal: `[-+]?\d+` which must consume
the whole remaining input (the constructor regex is a fullmatch). -/
def parseExpPart (cs : List Char) : Option Int :=
  let sr := parseSign cs
  let ds := sr.2.takeWhile isDigitCh
  let rest := sr.2.drop ds.length
  if ds = [] ∨ rest ≠ [] then none
  else some (if sr.1 then -(natOfDigits ds : Int) else (natOfDigits ds : Int))

/-- Assemble a finite decimal from integer digits, fractional digits and
the unconsumed rest (which may only be an exponent part).  Mirrors
CPython `_pydecimal`: coefficient `int(intpart + fracpart)`, exponent
`exp - len(fracpart)`; at least one digit must be present. -/
def mkFiniteDec (neg : Bool) (ipart fpart rest : List Char) : Option PyDec :=
  if ipart = [] ∧ fpart = [] then none
  else
    match rest with
    | [] => some (.num neg (natOfDigits (ipart ++ fpart)) (-(fpart.length : Int)))
    | e :: r =>
      if e = 'e' ∨ e = 'E' then
        match parseExpPart r with
        | some ex => some (.num neg (natOfDigits (ipart ++ fpart)) (ex - fpart.length))
        | none => none
      else none

/-- Numeric branch of the Decimal constructor grammar:
`(?=\d|\.\d)\d*(\.\d*)?(E[-+]?\d+)?`. -/
def parseNumericDec (neg : Bool) (cs : List Char) : Option PyDec :=
  let ipart := cs.takeWhile isDigitCh
  let r1 := cs.drop ipart.length
  match r1 with
  | '.' :: r2 =>
    let fpart := r2.takeWhile isDigitCh
    mkFiniteDec neg ipart fpart (r2.drop fpart.length)
  | _ => mkFiniteDec neg ipart [] r1

/-- Special-value branch of the Decimal constructor grammar
(case-insensitive): `Inf`, `Infinity`, `NaN\d*`, `sNaN\d*`. -/
def parseSpecialDec (neg : Bool) (cs : List Char) : Option PyDec :=
  let l := cs.map Char.toLower
  if l = ['i', 'n', 'f'] ∨ l = ['i', 'n', 'f', 'i', 'n', 'i', 't', 'y'] then
    some (.inf neg)
  else
    match l with
    | 'n' :: 'a' :: 'n' :: ds => if ds.all isDigitCh then some (.nan false) else none
    | 's' :: 'n' :: 'a' :: 'n' :: ds => if ds.all isDigitCh then some (.nan true) else none
    | _ => none

/-- Python `Decimal(s)` for a string argument: strip whitespace, delete
underscores, then parse per the numeric-string grammar; `none` models
the constructor raising `InvalidOperation`. -/
def parsePyDec (s : String) : Option PyDec :=
  let cs := (stripWS s.data).filter (fun c => c ≠ '_')
  let sr := parseSign cs
  match parseSpecialDec sr.1 sr.2 with
  | some d => some d
  | none => parseNumericDec sr.1 sr.2

/-- Three-way comparison on `Int`. -/
def intCmp (a b : Int) : Ordering :=
  if a < b then .lt else if a = b then .eq else .gt

/-- Signed integer value of a finite decimal after rescaling to the
smaller of the two exponents being compared. -/
def decScaled (neg : Bool) (c : Nat) (e other : Int) : Int :=
  (if neg then -1 else 1) * (c : Int) * 10 ^ (e - min e other).toNat

/-- Python decimal ordering comparison; `none` models the
`InvalidOperation` that ordered comparisons raise when either operand
is a NaN. -/
def decCompare : PyDec → PyDec → Option Ordering
  | .nan _, _ => none
  | _, .nan _ => none
  | .inf n1, .inf n2 => some (if n1 = n2 then .eq else if n1 then .lt else .gt)
  | .inf n1, .num _ _ _ => some (if n1 then .lt else .gt)
  | .num _ _ _, .inf n2 => some (if n2 then .gt else .lt)
  | .num n1 c1 e1, .num n2 c2 e2 =>
    some (intCmp (decScaled n1 c1 e1 e2) (decScaled n2 c2 e2 e1))

/-- Python `a < b` on decimals (`none` = raises InvalidOperation). -/
def decLtB (a b : PyDec) : Option Bool :=
  (decCompare a b).map (fun o => match o with | .lt => true | _ => false)

/-- Python `a <= b` on decimals (`none` = raises InvalidOperation). -/
def decLeB (a b : PyDec) : Option Bool :=
  (decCompare a b).map (fun o => match o with | .gt => false | _ => true)

/-- `Decimal(0)`. -/
def decZero : PyDec := .num false 0 0

/-- Python `str` of a Decimal, following the to-scientific-string
algorithm of `_pydecimal.__str__`. -/
def pyDecStr (d : PyDec) : String :=
  match d with
  | .inf neg => if neg then "-Infinity" else "Infinity"
  | .nan s => if s then "sNaN" else "NaN"
  | .num neg c e =>
    let ds := (Nat.repr c).data
    let leftdigits : Int := e + ds.length
    let dotplace : Int := if e ≤ 0 ∧ leftdigits > -6 then leftdigits else 1
    let body : List Char :=
      if dotplace ≤ 0 then
        '0' :: '.' :: (List.replicate (-dotplace).toNat '0' ++ ds)
      else if (ds.length : Int) ≤ dotplace then
        ds ++ List.replicate (dotplace.toNat - ds.length) '0'
      else
        ds.take dotplace.toNat ++ '.' :: ds.drop dotplace.toNat
    let ePart : List Char :=
      if leftdigits = dotplace then []
      else
        let ev := leftdigits - dotplace
        'E' :: (if 0 ≤ ev then '+' :: (Nat.repr ev.toNat).data
                else '-' :: (Nat.repr (-ev).toNat).data)
    String.mk ((if neg then ['-'] else []) ++ body ++ ePart)

/-- Kind of Python exception a validator run can surface with.
`valueError` is the field-scoped validation failure the validators
raise themselves; `invalidOperation` is an uncaught
`decimal.InvalidOperation` escaping from a NaN comparison. -/
inductive PyErr where
  | valueError (msg : String)
  | invalidOperation
  deriving DecidableEq, Repr

/-- src/bot/validators.py `validate_symbol`: strip, uppercase, match
`^[A-Z0-9]{2,20}$`; return the canonical form or raise ValueError. -/
def validate_symbol (symbol : String) : Except PyErr String :=
  let s := pyUpper (pyStrip symbol)
  if symbolMatches s then .ok s
  else .error (.valueError
    s!"Invalid symbol \x27{s}\x27. Expected uppercase alphanumeric (e.g. BTCUSDT).")

/-- src/bot/validators.py `validate_side`: strip, uppercase, require
BUY or SELL. -/
def validate_side (side : String) : Except PyErr String :=
  let s := pyUpper (pyStrip side)
  if s = "BUY" ∨ s = "SELL" then .ok s
  else .error (.valueError
    s!"Invalid side \x27{s}\x27. Must be one of: BUY, SELL.")

/-- src/bot/validators.py `validate_order_type`: strip, uppercase,
require MARKET or LIMIT. -/
def validate_order_type (order_type : String) : Except PyErr String :=
  let s := pyUpper (pyStrip order_type)
  if s = "MARKET" ∨ s = "LIMIT" then .ok s
  else .error (.valueError
    s!"Invalid order type \x27{s}\x27. Must be one of: MARKET, LIMIT.")

/-- src/bot/validators.py `validate_quantity`: `Decimal(str(quantity))`
inside a try that rewrites the constructor failure to ValueError, then
`if qty <= 0` OUTSIDE the try — so a NaN quantity makes the comparison
raise an uncaught `InvalidOperation`. -/
def validate_quantity (quantity : String) : Except PyErr PyDec :=
  match parsePyDec quantity with
  | none => .error (.valueError
      s!"Invalid quantity \x27{quantity}\x27. Must be a positive number.")
  | some qty =>
    match decLeB qty decZero with
    | none => .error .invalidOperation
    | some true =>
      let qs := pyDecStr qty
      .error (.valueError s!"Quantity must be positive, got {qs}.")
    | some false => .ok qty

/-- src/bot/validators.py `validate_price`: MARKET returns None before
any parsing; every other order type requires a present, parseable,
positive price (the NaN comparison again escapes as InvalidOperation). -/
def validate_price (price : Option String) (order_type : String) :
    Except PyErr (Option PyDec) :=
  if order_type = "MARKET" then .ok none
  else
    match price with
    | none => .error (.valueError "Price is required for LIMIT orders.")
    | some pr =>
      match parsePyDec pr with
      | none => .error (.valueError
          s!"Invalid price \x27{pr}\x27. Must be a positive number.")
      | some p =>
        match decLeB p decZero with
        | none => .error .invalidOperation
        | some true =>
          let ps := pyDecStr p
          .error (.valueError s!"Price must be positive, got {ps}.")
        | some false => .ok (some p)

/-- The clean parameter dict returned by `validate_all`
(keys `symbol`, `side`, `order_type`, `quantity`, `price`). -/
structure OrderRequest where
  symbol : String
  side : String
  order_type : String
  quantity : PyDec
  price : Option PyDec
  deriving DecidableEq, Repr

/-- src/bot/validators.py `validate_all`: run the five validators in
source order, propagating the first failure. -/
def validate_all (symbol side order_type quantity : String)
    (price : Option String) : Except PyErr OrderRequest := do
  let v_symbol ← validate_symbol symbol
  let v_side ← validate_side side
  let v_type ← validate_order_type order_type
  let v_qty ← validate_quantity quantity
  let v_price ← validate_price price v_type
  return { symbol := v_symbol, side := v_side, order_type := v_type,
           quantity := v_qty, price := v_price }

/-- UTF-8 encoding of one character (the byte sequence Python
`str.encode("utf-8")` produces for it). -/
def utf8Bytes (c : Char) : List Nat :=
  let n := c.toNat
  if n < 0x80 then [n]
  else if n < 0x800 then [0xC0 + n / 64, 0x80 + n % 64]
  else if n < 0x10000 then [0xE0 + n / 4096, 0x80 + (n / 64) % 64, 0x80 + n % 64]
  else [0xF0 + n / 0x40000, 0x80 + (n / 4096) % 64, 0x80 + (n / 64) % 64,
        0x80 + n % 64]

/-- UTF-8 bytes of a whole string. -/
def strBytes (s : String) : List Nat := (s.data.map utf8Bytes).flatten

/-- The bytes urllib never quotes (`_ALWAYS_SAFE`): ASCII letters,
digits, and `_ . - ~`. -/
def isSafeByte (b : Nat) : Bool :=
  (65 ≤ b && b ≤ 90) || (97 ≤ b && b ≤ 122) || (48 ≤ b && b ≤ 57) ||
  b = 95 || b = 46 || b = 45 || b = 126

/-- Uppercase hex digit, as urllib percent-escapes use. -/
def hexUpperDigit (n : Nat) : Char :=
  if n < 10 then Char.ofNat (48 + n) else Char.ofNat (55 + n)

/-- `urllib.parse.quote_plus` acting on one byte of the UTF-8 encoding:
safe bytes pass through, space becomes `+`, everything else becomes a
percent escape. -/
def byteEnc (b : Nat) : List Char :=
  if isSafeByte b then [Char.ofNat b]
  else if b = 32 then ['+']
  else ['%', hexUpperDigit (b / 16), hexUpperDigit (b % 16)]

/-- `quote_plus` over a byte sequence. -/
def quotePlusBytes (bs : List Nat) : List Char := (bs.map byteEnc).flatten

/-- `urllib.parse.quote_plus(s, safe="")` as used by `urlencode`. -/
def quote_plus (s : String) : String := String.mk (quotePlusBytes (strBytes s))

/-- One `key=value` unit of the query string. -/
def encPair (k v : String) : List Char :=
  quotePlusBytes (strBytes k) ++ '=' :: quotePlusBytes (strBytes v)

/-- Join query-string units with `&`. -/
def joinAmp : List (List Char) → List Char
  | [] => []
  | [x] => x
  | x :: y :: r => x ++ '&' :: joinAmp (y :: r)

/-- `urllib.parse.urlencode` on an insertion-ordered mapping whose keys
and values are strings (the client stringifies the timestamp itself;
`urlencode` applies `str` to values, the identity here). -/
def urlencode (d : List (String × String)) : String :=
  String.mk (joinAmp (d.map (fun p => encPair p.1 p.2)))

/-- Python `d[k] = v` on an insertion-ordered dict: an existing key
keeps its position, a new key is appended. -/
def dictSet (k v : String) (d : List (String × String)) :
    List (String × String) :=
  if d.any (fun p => p.1 = k) then
    d.map (fun p => if p.1 = k then (k, v) else p)
  else d ++ [(k, v)]

/-- Python `d.get(k)` on a string-valued dict. -/
def pyGet (d : List (String × String)) (k : String) : Option String :=
  (d.find? (fun p => p.1 = k)).map (·.2)

/-- Primality test by trial division (used only to derive the SHA-256
round constants from their definition). -/
def isPrimeB (n : Nat) : Bool :=
  2 ≤ n && ((List.range n).drop 2).all (fun d => n % d ≠ 0)

/-- The first 64 primes. -/
def primes64 : List Nat := ((List.range 400).filter isPrimeB).take 64

/-- Bounded binary search for the integer cube root. -/
def icbrtGo (n : Nat) : Nat → Nat → Nat → Nat
  | 0, lo, _ => lo
  | f + 1, lo, hi =>
    let mid := (lo + hi) / 2
    if mid = lo then lo
    else if mid ^ 3 ≤ n then icbrtGo n f mid hi else icbrtGo n f lo mid

/-- Largest `r` with `r ^ 3 ≤ n`. -/
def icbrt (n : Nat) : Nat := icbrtGo n 200 0 (n + 2)

/-- SHA-256 round constants: first 32 bits of the fractional parts of
the cube roots of the first 64 primes. -/
def shaK : List Nat := primes64.map (fun p => icbrt (p * 2 ^ 96) % 2 ^ 32)

/-- SHA-256 initial hash: first 32 bits of the fractional parts of the
square roots of the first 8 primes. -/
def shaH0 : List Nat := (primes64.take 8).map (fun p => Nat.sqrt (p * 2 ^ 64) % 2 ^ 32)

/-- Truncate to a 32-bit word. -/
def w32 (n : Nat) : Nat := n % 2 ^ 32

/-- 32-bit right rotation. -/
def rotr (n x : Nat) : Nat := w32 (x / 2 ^ n + x * 2 ^ (32 - n))

/-- Logical right shift. -/
def shr (n x : Nat) : Nat := x / 2 ^ n

/-- Bitwise complement on 32-bit words (operand below `2 ^ 32`). -/
def not32 (x : Nat) : Nat := 2 ^ 32 - 1 - x

/-- SHA-256 Σ0. -/
def bigSigma0 (x : Nat) : Nat := (rotr 2 x) ^^^ (rotr 13 x) ^^^ (rotr 22 x)

/-- SHA-256 Σ1. -/
def bigSigma1 (x : Nat) : Nat := (rotr 6 x) ^^^ (rotr 11 x) ^^^ (rotr 25 x)

/-- SHA-256 σ0. -/
def smallSigma0 (x : Nat) : Nat := (rotr 7 x) ^^^ (rotr 18 x) ^^^ (shr 3 x)

/-- SHA-256 σ1. -/
def smallSigma1 (x : Nat) : Nat := (rotr 17 x) ^^^ (rotr 19 x) ^^^ (shr 10 x)

/-- SHA-256 Ch. -/
def chFn (x y z : Nat) : Nat := (x &&& y) ^^^ (not32 x &&& z)

/-- SHA-256 Maj. -/
def majFn (x y z : Nat) : Nat := (x &&& y) ^^^ (x &&& z) ^^^ (y &&& z)

/-- Big-endian byte rendering of a value in `count` bytes. -/
def beBytes : Nat → Nat → List Nat
  | 0, _ => []
  | n + 1, v => beBytes n (v / 256) ++ [v % 256]

/-- SHA-256 padding: `0x80`, zeros to 56 mod 64, 64-bit bit length. -/
def sha256Pad (msg : List Nat) : List Nat :=
  let L := msg.length
  let k := (55 + 64 - L % 64) % 64
  msg ++ 128 :: (List.replicate k 0 ++ beBytes 8 (8 * L))

/-- Group bytes into big-endian 32-bit words. -/
def bytesToWords : List Nat → List Nat
  | a :: b :: c :: d :: r => (((a * 256 + b) * 256 + c) * 256 + d) :: bytesToWords r
  | _ => []

/-- Extend the 16 block words to the 64-entry message schedule. -/
def shaSchedule (ws : List Nat) : List Nat :=
  (List.range 48).foldl
    (fun acc i =>
      acc ++ [w32 (smallSigma1 (acc.getD (i + 14) 0) + acc.getD (i + 9) 0 +
                   smallSigma0 (acc.getD (i + 1) 0) + acc.getD i 0)])
    ws

/-- One SHA-256 compression round on the 8-word state. -/
def shaRound (st : List Nat) (kw : Nat × Nat) : List Nat :=
  match st with
  | [a, b, c, d, e, f, g, h] =>
    let t1 := w32 (h + bigSigma1 e + chFn e f g + kw.1 + kw.2)
    let t2 := w32 (bigSigma0 a + majFn a b c)
    [w32 (t1 + t2), a, b, c, w32 (d + t1), e, f, g]
  | other => other

/-- Compress one 64-byte block into the running hash. -/
def shaCompress (h : List Nat) (block : List Nat) : List Nat :=
  let st := ((shaK.zip (shaSchedule (bytesToWords block))).foldl shaRound h)
  (h.zip st).map (fun p => w32 (p.1 + p.2))

/-- SHA-256 digest (32 bytes) of a byte sequence. -/
def sha256Digest (msg : List Nat) : List Nat :=
  let p := sha256Pad msg
  let hh := (List.range (p.length / 64)).foldl
    (fun h i => shaCompress h ((p.drop (64 * i)).take 64)) shaH0
  (hh.map (beBytes 4)).flatten

/-- Lowercase hex digit, as `hexdigest` uses. -/
def hexLowerDigit (n : Nat) : Char :=
  if n < 10 then Char.ofNat (48 + n) else Char.ofNat (87 + n)

/-- Lowercase hex string of a byte sequence. -/
def bytesToHex (bs : List Nat) : String :=
  String.mk ((bs.map (fun b => [hexLowerDigit (b / 16), hexLowerDigit (b % 16)])).flatten)

/-- `hmac.new(key, msg, hashlib.sha256)` over byte sequences. -/
def hmacSha256 (key msg : List Nat) : List Nat :=
  let k0 := if 64 < key.length then sha256Digest key else key
  let k1 := k0 ++ List.replicate (64 - k0.length) 0
  sha256Digest ((k1.map (fun b => b ^^^ 0x5c)) ++
    sha256Digest ((k1.map (fun b => b ^^^ 0x36)) ++ msg))

/-- Hex HMAC-SHA256 of a string message under a string key, both taken
as their UTF-8 bytes — `hmac.new(secret.encode(), qs.encode(),
hashlib.sha256).hexdigest()`. -/
def hmacSha256Hex (secret msg : String) : String :=
  bytesToHex (hmacSha256 (strBytes secret) (strBytes msg))

/-- src/bot/client.py `_sign` (lines 64-74): writes
`params["timestamp"] = int(time.time() * 1000)` — the ambient clock,
passed explicitly here because the embedding makes effects explicit —
then signs `urlencode(params)` and writes `params["signature"]`.
The Python function mutates `params` in place and returns that same
object; its result value here is therefore also the state of the
caller-visible dict after the call. -/
def signParams (secret : String) (nowMs : Nat)
    (params : List (String × String)) : List (String × String) :=
  let p1 := dictSet "timestamp" (toString nowMs) params
  dictSet "signature" (hmacSha256Hex secret (urlencode p1)) p1

/-- Parsed JSON value (numbers restricted to integers, which covers
every numeric literal the claims touch). -/
inductive Json where
  | null
  | bool (b : Bool)
  | num (n : Int)
  | str (s : String)
  | arr (elems : List Json)
  | obj (fields : List (String × Json))

/-- How a `_request` call can fail: the structured `BinanceAPIError`
(status, code, msg — the latter two are whatever JSON values the body
supplied or the documented defaults), an `AttributeError` escaping from
`body.get` when the parsed body is not a dict, or the `ValueError`
from parsing a malformed success body at line 140. -/
inductive ClientFault where
  | apiError (status_code : Nat) (code : Json) (message : Json)
  | attributeError
  | jsonDecodeError

/-- Python `body.get(k, dflt)` on a parsed JSON object. -/
def jsonGetD (fields : List (String × Json)) (k : String) (dflt : Json) : Json :=
  match fields.find? (fun p => p.1 = k) with
  | some p => p.2
  | none => dflt

/-- An HTTP response as `_request` observes it: status code, raw text,
and the result of `response.json()` (`none` when the body is not valid
JSON and the parse raises `ValueError`). -/
structure HttpResp where
  status : Nat
  text : String
  jsonBody : Option Json

/-- `response.ok` — true for status codes below 400. -/
def respOk (r : HttpResp) : Bool := r.status < 400

/-- Outcome of src/bot/client.py `_request` (lines 130-140) as a
function of the received response.  On a non-ok response: parse the
body; a dict body yields `BinanceAPIError(status, body.get("code",
-1), body.get("msg", response.text))`; a `ValueError` from parsing
yields `BinanceAPIError(status, -1, response.text)`; a body that
parses to a non-dict makes `body.get` raise `AttributeError`, which
`except ValueError` does not catch. -/
def dispatchOutcome (resp : HttpResp) : Except ClientFault Json :=
  if respOk resp then
    match resp.jsonBody with
    | some j => .ok j
    | none => .error .jsonDecodeError
  else
    match resp.jsonBody with
    | some (.obj fields) =>
      .error (.apiError resp.status (jsonGetD fields "code" (.num (-1)))
        (jsonGetD fields "msg" (.str resp.text)))
    | some _ => .error .attributeError
    | none => .error (.apiError resp.status (.num (-1)) (.str resp.text))

/-- Result of the parameter handling at the top of `_request`
(lines 109-113): `callerAfter` is the caller's dict after the call and
`wire` the dict actually sent.  Line 110 rebinds `params` to a fresh
copy (`dict(params or {})`), so the in-place writes `_sign` performs
hit only that copy; the caller's object is never written again, which
is what `callerAfter := caller` records. -/
structure DispatchTrace where
  callerAfter : Option (List (String × String))
  wire : List (String × String)

/-- The parameter phase of `_request`: copy, then sign the copy when
requested. -/
def dispatchPrepare (caller : Option (List (String × String)))
    (signed : Bool) (secret : String) (nowMs : Nat) : DispatchTrace :=
  let copy := caller.getD []
  { callerAfter := caller,
    wire := if signed then signParams secret nowMs copy else copy }

/-- Python `str` of the Optional price in src/bot/orders.py line 49
(`str(None)` is the literal `"None"`). -/
def strOptDec : Option PyDec → String
  | some d => pyDecStr d
  | none => "None"

/-- src/bot/orders.py `place_order` lines 41-50: the wire parameter
dict — symbol, side, type, quantity as `str(Decimal)`, and for LIMIT
orders additionally price and `timeInForce = "GTC"`. -/
def buildOrderParams (req : OrderRequest) : List (String × String) :=
  let base := [("symbol", req.symbol), ("side", req.side),
               ("type", req.order_type), ("quantity", pyDecStr req.quantity)]
  if req.order_type = "LIMIT" then
    base ++ [("price", strOptDec req.price), ("timeInForce", "GTC")]
  else base

/-- src/bot/orders.py `place_order`, delegating to the client's signed
place-order call (modelled by `send`) and returning the response; the
result log line reads `response.get("orderId")`, so a non-dict
response would escape as an `AttributeError` before the return. -/
def place_order (send : List (String × String) → Except ClientFault Json)
    (req : OrderRequest) : Except ClientFault Json :=
  match send (buildOrderParams req) with
  | .error e => .error e
  | .ok (.obj fields) => .ok (.obj fields)
  | .ok _ => .error .attributeError

/-- Python `str(x)` for the Optional field values rendered by the
f-strings in `format_order_response` — `None` renders as `"None"`. -/
def showOpt : Option String → String
  | some v => v
  | none => "None"

/-- The eleven lines built by src/bot/orders.py
`format_order_response` (lines 75-88). -/
def formatLines (r : List (String × String)) : List String :=
  [ "─── Order Response ───────────────────────────",
    "  Order ID      : " ++ showOpt (pyGet r "orderId"),
    "  Symbol        : " ++ showOpt (pyGet r "symbol"),
    "  Side          : " ++ showOpt (pyGet r "side"),
    "  Type          : " ++ showOpt (pyGet r "type"),
    "  Status        : " ++ showOpt (pyGet r "status"),
    "  Orig Qty      : " ++ showOpt (pyGet r "origQty"),
    "  Executed Qty  : " ++ showOpt (pyGet r "executedQty"),
    "  Avg Price     : " ++ (pyGet r "avgPrice").getD "N/A",
    "  Price         : " ++ (pyGet r "price").getD "N/A",
    "  Time In Force : " ++ (pyGet r "timeInForce").getD "N/A",
    "───────────────────────────────────────────────" ]

/-- src/bot/orders.py `format_order_response`: the joined report. -/
def format_order_response (r : List (String × String)) : String :=
  String.intercalate "\n" (formatLines r)

/-! ### Helper lemmas about the decimal order and the validators -/

/-- `intCmp` on a strictly smaller first argument. -/
theorem intCmp_lt {a b : Int} (h : a < b) : intCmp a b = .lt := by
  unfold intCmp; rw [if_pos h]

/-- `intCmp` on equal arguments. -/
theorem intCmp_eq {a b : Int} (h : a = b) : intCmp a b = .eq := by
  unfold intCmp; rw [if_neg (by omega), if_pos h]

/-- `intCmp` on a strictly larger first argument. -/
theorem intCmp_gt {a b : Int} (h : b < a) : intCmp a b = .gt := by
  unfold intCmp; rw [if_neg (by omega), if_neg (by omega)]

/-- The three-way integer comparison is antisymmetric. -/
theorem intCmp_swap (a b : Int) :
    (intCmp a b = .lt ↔ intCmp b a = .gt) ∧
    (intCmp a b = .eq ↔ intCmp b a = .eq) := by
  rcases lt_trichotomy a b with h | h | h
  · rw [intCmp_lt h, intCmp_gt h]; simp
  · rw [intCmp_eq h, intCmp_eq h.symm]; simp
  · rw [intCmp_gt h, intCmp_lt h]; simp

/-- A decimal that the code's `qty <= 0` test rejects as `False` is
strictly positive in the decimal order. -/
theorem decLtB_zero_iff (d : PyDec) :
    decLtB decZero d = some true ↔ decLeB d decZero = some false := by
  cases d with
  | num n c e =>
    simp only [decLtB, decLeB, decZero, decCompare, Option.map_some]
    rcases h1 : intCmp (decScaled false 0 0 e) (decScaled n c e 0) with _ | _ | _
    · have h2 := ((intCmp_swap (decScaled false 0 0 e) (decScaled n c e 0)).1).mp h1
      rw [h2]; simp
    · have h2 := ((intCmp_swap (decScaled false 0 0 e) (decScaled n c e 0)).2).mp h1
      rw [h2]; simp
    · have h2 := ((intCmp_swap (decScaled n c e 0) (decScaled false 0 0 e)).1).mpr h1
      rw [h2]; simp
  | inf n => cases n <;> decide
  | nan s => cases s <;> decide

/-- Only NaNs make the decimal comparison raise. -/
theorem decLeB_zero_none {d : PyDec} (h : decLeB d decZero = none) :
    ∃ sg, d = .nan sg := by
  cases d with
  | num n c e => simp [decLeB, decCompare, decZero] at h
  | inf n => simp [decLeB, decCompare, decZero] at h
  | nan sg => exact ⟨sg, rfl⟩

/-- Inversion of a successful `validate_quantity`. -/
theorem validate_quantity_ok {q : String} {d : PyDec}
    (h : validate_quantity q = .ok d) :
    parsePyDec q = some d ∧ decLeB d decZero = some false := by
  unfold validate_quantity at h
  split at h
  · simp at h
  · next x hp =>
    split at h
    · simp at h
    · simp at h
    · next hl =>
      have hx : x = d := by simpa using h
      subst hx
      exact ⟨hp, hl⟩

/-- Inversion of a successful `validate_price`. -/
theorem validate_price_ok {p : Option String} {t : String}
    {r : Option PyDec} (h : validate_price p t = .ok r) :
    (t = "MARKET" ∧ r = none) ∨
    (t ≠ "MARKET" ∧ ∃ s d, p = some s ∧ parsePyDec s = some d ∧
      r = some d ∧ decLeB d decZero = some false) := by
  unfold validate_price at h
  by_cases hm : t = "MARKET"
  · rw [if_pos hm] at h
    exact Or.inl ⟨hm, by simpa using h.symm⟩
  · rw [if_neg hm] at h
    refine Or.inr ⟨hm, ?_⟩
    split at h
    · simp at h
    · next pr =>
      split at h
      · simp at h
      · next d hp =>
        split at h
        · simp at h
        · simp at h
        · next hl =>
          exact ⟨pr, d, rfl, hp, by simpa using h.symm, hl⟩

/-- Inversion of a successful `validate_order_type`. -/
theorem validate_order_type_ok {t v : String}
    (h : validate_order_type t = .ok v) : v = "MARKET" ∨ v = "LIMIT" := by
  unfold validate_order_type at h
  dsimp only at h
  split_ifs at h with hc
  have hv : pyUpper (pyStrip t) = v := by simpa using h
  exact hv ▸ hc

/-! ### Claim C2: composition order and result of `validate_all` -/

/-- C2: `validate_all` applies the validators in the fixed order
symbol → side → type → quantity → price, propagating the first
failure unevaluated further (the result is independent of all later
inputs), and on success returns exactly the five-field dict of the
validators' outputs; concretely,
`validate_all("btcusdt", "buy", "market", "0.01", None)` gives
`{symbol: BTCUSDT, side: BUY, order_type: MARKET, quantity: Decimal
0.01, price: None}`. -/
theorem validate_all_fail_fast :
    (∀ s sd t q p e, validate_symbol s = .error e →
      validate_all s sd t q p = .error e)
  ∧ (∀ s sd t q p v1 e, validate_symbol s = .ok v1 →
      validate_side sd = .error e → validate_all s sd t q p = .error e)
  ∧ (∀ s sd t q p v1 v2 e, validate_symbol s = .ok v1 →
      validate_side sd = .ok v2 → validate_order_type t = .error e →
      validate_all s sd t q p = .error e)
  ∧ (∀ s sd t q p v1 v2 v3 e, validate_symbol s = .ok v1 →
      validate_side sd = .ok v2 → validate_order_type t = .ok v3 →
      validate_quantity q = .error e → validate_all s sd t q p = .error e)
  ∧ (∀ s sd t q p v1 v2 v3 v4 e, validate_symbol s = .ok v1 →
      validate_side sd = .ok v2 → validate_order_type t = .ok v3 →
      validate_quantity q = .ok v4 → validate_price p v3 = .error e →
      validate_all s sd t q p = .error e)
  ∧ (∀ s sd t q p v1 v2 v3 v4 v5, validate_symbol s = .ok v1 →
      validate_side sd = .ok v2 → validate_order_type t = .ok v3 →
      validate_quantity q = .ok v4 → validate_price p v3 = .ok v5 →
      validate_all s sd t q p = .ok ⟨v1, v2, v3, v4, v5⟩)
  ∧ validate_all "btcusdt" "buy" "market" "0.01" none =
      .ok ⟨"BTCUSDT", "BUY", "MARKET", .num false 1 (-2), none⟩ := by
  have conc : validate_all "btcusdt" "buy" "market" "0.01" none =
      .ok ⟨"BTCUSDT", "BUY", "MARKET", .num false 1 (-2), none⟩ := rfl
  refine ⟨?_, ?_, ?_, ?_, ?_, ?_, ?_⟩
  · intro s sd t q p e h1
    simp [validate_all, bind, Except.bind, h1]
  · intro s sd t q p v1 e h1 h2
    simp [validate_all, bind, Except.bind, h1, h2]
  · intro s sd t q p v1 v2 e h1 h2 h3
    simp [validate_all, bind, Except.bind, h1, h2, h3]
  · intro s sd t q p v1 v2 v3 e h1 h2 h3 h4
    simp [validate_all, bind, Except.bind, h1, h2, h3, h4]
  · intro s sd t q p v1 v2 v3 v4 e h1 h2 h3 h4 h5
    simp [validate_all, bind, Except.bind, h1, h2, h3, h4, h5]
  · intro s sd t q p v1 v2 v3 v4 v5 h1 h2 h3 h4 h5
    simp [validate_all, bind, Except.bind, pure, Except.pure,
      h1, h2, h3, h4, h5]
  · exact conc

/-- Witness for C2: the fail-fast clauses and the success clause hold
at concrete inputs. -/
theorem validate_all_fail_fast_witness :
    validate_all "@@" "buy" "market" "0.01" none =
      .error (.valueError
        "Invalid symbol \x27@@\x27. Expected uppercase alphanumeric (e.g. BTCUSDT).")
  ∧ validate_all "btcusdt" "hold" "market" "oops" none =
      .error (.valueError "Invalid side \x27HOLD\x27. Must be one of: BUY, SELL.")
  ∧ validate_all "ethusdt" "SELL" "limit" "0.1" (some "3000") =
      .ok ⟨"ETHUSDT", "SELL", "LIMIT", .num false 1 (-1), some (.num false 3000 0)⟩ :=
  ⟨validate_all_fail_fast.1 "@@" "buy" "market" "0.01" none _ rfl,
   validate_all_fail_fast.2.1 "btcusdt" "hold" "market" "oops" none "BTCUSDT" _
     rfl rfl,
   validate_all_fail_fast.2.2.2.2.2.1 "ethusdt" "SELL" "limit" "0.1" (some "3000")
     "ETHUSDT" "SELL" "LIMIT" (.num false 1 (-1)) (some (.num false 3000 0))
     rfl rfl rfl rfl rfl⟩

/-- Did a validator run fail with the field-scoped `ValueError` the
validators raise themselves (as opposed to succeeding or escaping with
a different exception)? -/
def isValueError {α : Type} : Except PyErr α → Bool
  | .error (.valueError _) => true
  | _ => false

/-! ### Claim C6: `validate_price` behaviour for MARKET and LIMIT -/

/-- C6: for MARKET orders `validate_price` returns `None` for every
supplied price, malformed ones included, without parsing it; for LIMIT
orders it fails when the price is missing or does not parse to a
strictly positive decimal (`"-5"` in particular), and otherwise
succeeds with exactly the parsed decimal (`"100.5"` gives the exact
value 100.5, i.e. coefficient 1005 at exponent -1). -/
theorem validate_price_market_limit :
    (∀ p, validate_price p "MARKET" = .ok none)
  ∧ validate_price none "LIMIT" =
      .error (.valueError "Price is required for LIMIT orders.")
  ∧ validate_price (some "-5") "LIMIT" =
      .error (.valueError "Price must be positive, got -5.")
  ∧ validate_price (some "100.5") "LIMIT" = .ok (some (.num false 1005 (-1)))
  ∧ (∀ s d, parsePyDec s = some d → decLtB decZero d = some true →
      validate_price (some s) "LIMIT" = .ok (some d))
  ∧ (∀ s r, validate_price (some s) "LIMIT" = .ok r →
      ∃ d, r = some d ∧ parsePyDec s = some d ∧ decLtB decZero d = some true) := by
  refine ⟨fun p => rfl, rfl, rfl, rfl, ?_, ?_⟩
  · intro s d hp hpos
    have hle : decLeB d decZero = some false := (decLtB_zero_iff d).mp hpos
    simp [validate_price, hp, hle]
  · intro s r h
    rcases validate_price_ok h with ⟨hm, _⟩ | ⟨_, s', d, hs, hp, hr, hle⟩
    · simp at hm
    · obtain rfl : s' = s := by simpa using hs.symm
      exact ⟨d, hr, hp, (decLtB_zero_iff d).mpr hle⟩

/-- Witness for C6: the universally quantified clauses hold at
concrete inputs. -/
theorem validate_price_market_limit_witness :
    validate_price (some "not a number") "MARKET" = .ok none
  ∧ validate_price (some "3000") "LIMIT" = .ok (some (.num false 3000 0)) :=
  ⟨validate_price_market_limit.1 (some "not a number"),
   validate_price_market_limit.2.2.2.2.1 "3000" (.num false 3000 0) rfl rfl⟩

/-! ### Claim C7: totality and failure mode of `validate_quantity` -/

/-- C7 counterexample: on input `"nan"` the quantity validator does not
fail with its field-scoped `ValueError` — the `qty <= 0` comparison,
which sits outside the `try`, raises an uncaught
`decimal.InvalidOperation`. -/
theorem validate_quantity_nan_counterexample :
    validate_quantity "nan" = .error .invalidOperation := rfl

/-- C7 as amended: for every input, `validate_quantity` either returns
a strictly positive decimal or fails with the field-scoped ValueError,
EXCEPT that inputs parsing to a decimal NaN escape with an uncaught
InvalidOperation; it rejects "0", every non-positive value and every
non-numeric string, and accepts "0.001" as exactly 0.001. -/
theorem validate_quantity_amended :
    (∀ q d, validate_quantity q = .ok d → decLtB decZero d = some true)
  ∧ (∀ q, validate_quantity q = .error .invalidOperation →
      ∃ sg, parsePyDec q = some (.nan sg))
  ∧ isValueError (validate_quantity "0") = true
  ∧ (∀ q d, parsePyDec q = some d → decLeB d decZero = some true →
      isValueError (validate_quantity q) = true)
  ∧ (∀ q, parsePyDec q = none → isValueError (validate_quantity q) = true)
  ∧ validate_quantity "0.001" = .ok (.num false 1 (-3)) := by
  refine ⟨?_, ?_, rfl, ?_, ?_, rfl⟩
  · intro q d h
    exact (decLtB_zero_iff d).mpr (validate_quantity_ok h).2
  · intro q h
    unfold validate_quantity at h
    split at h
    · simp at h
    · next x hp =>
      split at h
      · next hl =>
        obtain ⟨sg, rfl⟩ := decLeB_zero_none hl
        exact ⟨sg, hp⟩
      · simp at h
      · simp at h
  · intro q d hp hl
    simp [validate_quantity, hp, hl, isValueError]
  · intro q hp
    simp [validate_quantity, hp, isValueError]

/-- Witness for C7's amended theorem: its quantified clauses at
concrete inputs. -/
theorem validate_quantity_amended_witness :
    decLtB decZero (.num false 1 (-1)) = some true
  ∧ (∃ sg, parsePyDec "-nan123" = some (.nan sg))
  ∧ isValueError (validate_quantity "-0.5") = true
  ∧ isValueError (validate_quantity "twelve") = true :=
  ⟨validate_quantity_amended.1 "0.1" (.num false 1 (-1)) rfl,
   validate_quantity_amended.2.1 "-nan123" rfl,
   validate_quantity_amended.2.2.2.1 "-0.5" (.num true 5 (-1)) rfl rfl,
   validate_quantity_amended.2.2.2.2.1 "twelve" rfl⟩

/-! ### Claim C8: data-model invariants of a validated OrderRequest -/

/-- C8: every `OrderRequest` produced by a successful `validate_all`
has a strictly positive decimal quantity, and its price is `None`
exactly when the order type is MARKET, otherwise a strictly positive
decimal. -/
theorem validate_all_invariants :
    ∀ s sd t q p req, validate_all s sd t q p = .ok req →
      decLtB decZero req.quantity = some true
    ∧ (req.price = none ↔ req.order_type = "MARKET")
    ∧ (∀ d, req.price = some d → decLtB decZero d = some true) := by
  intro s sd t q p req h
  unfold validate_all at h
  simp only [bind, Except.bind] at h
  cases h1 : validate_symbol s with
  | error e => rw [h1] at h; simp at h
  | ok v1 =>
  rw [h1] at h; dsimp only at h
  cases h2 : validate_side sd with
  | error e => rw [h2] at h; simp at h
  | ok v2 =>
  rw [h2] at h; dsimp only at h
  cases h3 : validate_order_type t with
  | error e => rw [h3] at h; simp at h
  | ok v3 =>
  rw [h3] at h; dsimp only at h
  cases h4 : validate_quantity q with
  | error e => rw [h4] at h; simp at h
  | ok v4 =>
  rw [h4] at h; dsimp only at h
  cases h5 : validate_price p v3 with
  | error e => rw [h5] at h; simp at h
  | ok v5 =>
  rw [h5] at h; dsimp only at h
  simp only [pure, Except.pure, Except.ok.injEq] at h
  subst h
  refine ⟨(decLtB_zero_iff v4).mpr (validate_quantity_ok h4).2, ?_, ?_⟩
  · rcases validate_price_ok h5 with ⟨hm, hnone⟩ | ⟨hm, _, d, _, _, hsome, _⟩
    · subst hm; subst hnone; simp
    · subst hsome
      simp only [show (some d = none) = False by simp, false_iff]
      exact hm
  · intro d hd
    rcases validate_price_ok h5 with ⟨_, hnone⟩ | ⟨_, _, d', _, hp, hsome, hle⟩
    · rw [hnone] at hd; simp at hd
    · rw [hsome] at hd
      have hdd : d' = d := by simpa using hd
      rw [← hdd]
      exact (decLtB_zero_iff d').mpr hle

/-- Witness for C8: the invariants hold for a concrete validated LIMIT
order. -/
theorem validate_all_invariants_witness :
    decLtB decZero (PyDec.num false 1 (-1)) = some true
  ∧ ((none : Option PyDec) = none ↔ "LIMIT" = "MARKET") = False
  ∧ decLtB decZero (PyDec.num false 3000 0) = some true := by
  have h := validate_all_invariants "ethusdt" "SELL" "limit" "0.1" (some "3000")
    ⟨"ETHUSDT", "SELL", "LIMIT", .num false 1 (-1), some (.num false 3000 0)⟩ rfl
  exact ⟨h.1, by simp, h.2.2 (.num false 3000 0) rfl⟩

/-! ### Claim C5: the response formatter -/

/-- C5 counterexample: the `"N/A"` placeholder is NOT used for every
absent field — an absent `orderId` renders as Python `str(None)`,
the literal `"None"` (only `avgPrice`, `price` and `timeInForce`
carry the `"N/A"` default in the source). -/
theorem format_order_response_counterexample :
    pyGet [] "orderId" = none ∧
    (formatLines [])[1]? = some "  Order ID      : None" := ⟨rfl, rfl⟩

set_option maxRecDepth 8192 in
/-- C5 as amended: `format_order_response` is total and always returns
the fixed 12-line bordered report listing the ten fields; an absent
`avgPrice`, `price` or `timeInForce` shows the `"N/A"` placeholder,
while the remaining seven fields show `"None"` (Python `str(None)`)
when absent; the spec's concrete example renders exactly as stated,
with `N/A` for the two absent price fields. -/
theorem format_order_response_amended :
    (∀ r, (formatLines r).length = 12
      ∧ (formatLines r)[0]? = some "─── Order Response ───────────────────────────"
      ∧ (formatLines r)[11]? = some "───────────────────────────────────────────────")
  ∧ (∀ r, pyGet r "avgPrice" = none →
      (formatLines r)[8]? = some "  Avg Price     : N/A")
  ∧ (∀ r, pyGet r "price" = none →
      (formatLines r)[9]? = some "  Price         : N/A")
  ∧ (∀ r, pyGet r "timeInForce" = none →
      (formatLines r)[10]? = some "  Time In Force : N/A")
  ∧ (∀ r, pyGet r "orderId" = none →
      (formatLines r)[1]? = some "  Order ID      : None")
  ∧ (∀ r, pyGet r "symbol" = none →
      (formatLines r)[2]? = some "  Symbol        : None")
  ∧ (∀ r, pyGet r "side" = none →
      (formatLines r)[3]? = some "  Side          : None")
  ∧ (∀ r, pyGet r "type" = none →
      (formatLines r)[4]? = some "  Type          : None")
  ∧ (∀ r, pyGet r "status" = none →
      (formatLines r)[5]? = some "  Status        : None")
  ∧ (∀ r, pyGet r "origQty" = none →
      (formatLines r)[6]? = some "  Orig Qty      : None")
  ∧ (∀ r, pyGet r "executedQty" = none →
      (formatLines r)[7]? = some "  Executed Qty  : None")
  ∧ format_order_response
      [("orderId", "1"), ("symbol", "BTCUSDT"), ("side", "BUY"),
       ("type", "MARKET"), ("status", "FILLED"), ("origQty", "0.01"),
       ("executedQty", "0.01")] =
      "─── Order Response ───────────────────────────\n  Order ID      : 1\n  Symbol        : BTCUSDT\n  Side          : BUY\n  Type          : MARKET\n  Status        : FILLED\n  Orig Qty      : 0.01\n  Executed Qty  : 0.01\n  Avg Price     : N/A\n  Price         : N/A\n  Time In Force : N/A\n───────────────────────────────────────────────" := by
  refine ⟨fun r => ⟨rfl, rfl, rfl⟩, ?_, ?_, ?_, ?_, ?_, ?_, ?_, ?_, ?_, ?_, rfl⟩ <;>
    (intro r h; simp [formatLines, h, showOpt])

/-- Witness for C5's amended theorem: the placeholder clauses at a
concrete empty response. -/
theorem format_order_response_amended_witness :
    (formatLines [])[8]? = some "  Avg Price     : N/A"
  ∧ (formatLines [])[10]? = some "  Time In Force : N/A"
  ∧ (formatLines [])[2]? = some "  Symbol        : None" :=
  ⟨format_order_response_amended.2.1 [] rfl,
   format_order_response_amended.2.2.2.1 [] rfl,
   format_order_response_amended.2.2.2.2.2.1 [] rfl⟩

/-! ### Claim C1: error mapping in `_request` -/

/-- C1 counterexample: a non-success response whose body parses as
JSON but not as an object (here HTTP 400 with body `[]`) does not
raise `BinanceAPIError` — `body.get` raises `AttributeError`, which
the `except ValueError` clause does not catch. -/
theorem dispatch_nonobject_counterexample :
    dispatchOutcome ⟨400, "[]", some (.arr [])⟩ = .error .attributeError := rfl

/-- C1 as amended: on every non-success response, `_request` raises
`BinanceAPIError(status, code, msg)` when the body parses as a JSON
object (taking `code` from the body with default -1 and `msg` with
default the raw text) and also when the body is not valid JSON (then
`code = -1`, `msg` = raw text); a body parsing to non-object JSON
instead escapes with an `AttributeError`; in no case is a success
value returned.  The 400 / `{code: -2010, msg: "insufficient
balance"}` example yields exactly `APIError(400, -2010,
"insufficient balance")`. -/
theorem dispatch_error_mapping :
    (∀ resp fields, respOk resp = false → resp.jsonBody = some (.obj fields) →
      dispatchOutcome resp = .error (.apiError resp.status
        (jsonGetD fields "code" (.num (-1))) (jsonGetD fields "msg" (.str resp.text))))
  ∧ (∀ resp, respOk resp = false → resp.jsonBody = none →
      dispatchOutcome resp = .error (.apiError resp.status (.num (-1)) (.str resp.text)))
  ∧ (∀ resp j, respOk resp = false → dispatchOutcome resp ≠ .ok j)
  ∧ dispatchOutcome ⟨400,
      "\x7b\"code\": -2010, \"msg\": \"insufficient balance\"\x7d",
      some (.obj [("code", .num (-2010)), ("msg", .str "insufficient balance")])⟩
      = .error (.apiError 400 (.num (-2010)) (.str "insufficient balance")) := by
  refine ⟨?_, ?_, ?_, rfl⟩
  · intro resp fields h1 h2
    simp [dispatchOutcome, h1, h2]
  · intro resp h1 h2
    simp [dispatchOutcome, h1, h2]
  · intro resp j h1
    cases hb : resp.jsonBody with
    | none => simp [dispatchOutcome, h1, hb]
    | some jb => cases jb <;> simp [dispatchOutcome, h1, hb]

/-- Witness for C1's amended theorem: the object and unparsable cases
at concrete responses. -/
theorem dispatch_error_mapping_witness :
    dispatchOutcome ⟨503, "<html>down</html>", none⟩ =
      .error (.apiError 503 (.num (-1)) (.str "<html>down</html>"))
  ∧ dispatchOutcome ⟨418, "\x7b\x7d", some (.obj [])⟩ =
      .error (.apiError 418 (.num (-1)) (.str "\x7b\x7d")) :=
  ⟨dispatch_error_mapping.2.1 ⟨503, "<html>down</html>", none⟩ rfl rfl,
   dispatch_error_mapping.1 ⟨418, "\x7b\x7d", some (.obj [])⟩ [] rfl rfl⟩

/-! ### Dict helper lemmas shared by the client-side claims -/

/-- Setting a key absent from an insertion-ordered dict appends it. -/
theorem dictSet_absent (k v : String) (d : List (String × String))
    (h : k ∉ d.map Prod.fst) : dictSet k v d = d ++ [(k, v)] := by
  have hc : d.any (fun p => p.1 = k) = false := by
    rw [List.any_eq_false]
    intro p hp he
    exact h (List.mem_map.mpr ⟨p, hp, by simpa using he⟩)
  simp [dictSet, hc]

/-- Looking up a key appended behind entries that do not carry it. -/
theorem pyGet_append_last (d : List (String × String)) (k v : String)
    (h : k ∉ d.map Prod.fst) : pyGet (d ++ [(k, v)]) k = some v := by
  induction d with
  | nil => simp [pyGet, List.find?]
  | cons p t ih =>
    have hk : ¬(p.1 = k) := by
      intro he; exact h (by simp [he])
    have ht : k ∉ t.map Prod.fst := fun hm => h (by simp [hm])
    simp only [List.cons_append, pyGet, List.find?]
    rw [show (decide (p.1 = k)) = false by simpa using hk]
    exact ih ht

/-- The full effect of `_sign` on a dict not yet carrying `timestamp`
or `signature` (every dict `_request` builds): it appends exactly the
timestamp entry and then the signature entry, the latter an
HMAC-SHA256 over the url-encoding of everything before it. -/
theorem signParams_absent (secret : String) (now : Nat)
    (d : List (String × String))
    (ht : "timestamp" ∉ d.map Prod.fst) (hs : "signature" ∉ d.map Prod.fst) :
    signParams secret now d =
      d ++ [("timestamp", toString now),
            ("signature", hmacSha256Hex secret
              (urlencode (d ++ [("timestamp", toString now)])))] := by
  unfold signParams
  rw [dictSet_absent _ _ _ ht, dictSet_absent]
  · rw [List.append_assoc]; rfl
  · rw [List.map_append]
    intro hc
    rcases List.mem_append.mp hc with h1 | h2
    · exact hs h1
    · simp at h2

/-! ### Claim C9: wire parameters built by `place_order` -/

/-- C9: for every validated order, `place_order` builds wire
parameters holding exactly `symbol`, `side`, `type` and `quantity`
(the latter rendered by the exact decimal `str`), plus — exactly when
the order type is LIMIT — `price` (decimal string) and
`timeInForce = "GTC"`; it then hands the dict to the client's signed
place-order call and returns that call's response unchanged (errors
propagate unchanged; a well-formed JSON-object response is returned
as is). -/
theorem place_order_wire :
    ∀ req : OrderRequest,
      (req.order_type = "MARKET" ∨ req.order_type = "LIMIT") →
      (req.price = none ↔ req.order_type = "MARKET") →
      ((buildOrderParams req).map Prod.fst =
        ["symbol", "side", "type", "quantity"] ++
          (if req.order_type = "LIMIT" then ["price", "timeInForce"] else []))
    ∧ pyGet (buildOrderParams req) "symbol" = some req.symbol
    ∧ pyGet (buildOrderParams req) "side" = some req.side
    ∧ pyGet (buildOrderParams req) "type" = some req.order_type
    ∧ pyGet (buildOrderParams req) "quantity" = some (pyDecStr req.quantity)
    ∧ (req.order_type = "LIMIT" →
        ∃ d, req.price = some d ∧
          pyGet (buildOrderParams req) "price" = some (pyDecStr d) ∧
          pyGet (buildOrderParams req) "timeInForce" = some "GTC")
    ∧ (∀ send fields, send (buildOrderParams req) = .ok (.obj fields) →
        place_order send req = .ok (.obj fields))
    ∧ (∀ send e, send (buildOrderParams req) = .error e →
        place_order send req = .error e) := by
  intro req htype hiff
  by_cases hl : req.order_type = "LIMIT"
  · obtain ⟨d, hd⟩ : ∃ d, req.price = some d := by
      cases hp : req.price with
      | none =>
        exfalso
        have := hiff.mp hp
        rw [hl] at this
        simp at this
      | some d => exact ⟨d, rfl⟩
    refine ⟨?_, ?_, ?_, ?_, ?_, ?_, ?_, ?_⟩
    · simp [buildOrderParams, hl]
    · simp [buildOrderParams, hl, pyGet, List.find?]
    · simp [buildOrderParams, hl, pyGet, List.find?]
    · simp [buildOrderParams, hl, pyGet, List.find?]
    · simp [buildOrderParams, hl, pyGet, List.find?]
    · intro _
      exact ⟨d, hd, by simp [buildOrderParams, hl, pyGet, List.find?, hd, strOptDec],
        by simp [buildOrderParams, hl, pyGet, List.find?]⟩
    · intro send fields h
      simp [place_order, h]
    · intro send e h
      simp [place_order, h]
  · refine ⟨?_, ?_, ?_, ?_, ?_, ?_, ?_, ?_⟩
    · simp [buildOrderParams, hl]
    · simp [buildOrderParams, hl, pyGet, List.find?]
    · simp [buildOrderParams, hl, pyGet, List.find?]
    · simp [buildOrderParams, hl, pyGet, List.find?]
    · simp [buildOrderParams, hl, pyGet, List.find?]
    · intro h; exact absurd h hl
    · intro send fields h
      simp [place_order, h]
    · intro send e h
      simp [place_order, h]

/-- Witness for C9: the wire dict and delegation for a concrete
validated LIMIT order. -/
theorem place_order_wire_witness :
    pyGet (buildOrderParams ⟨"ETHUSDT", "SELL", "LIMIT", .num false 1 (-1),
      some (.num false 3000 0)⟩) "quantity" = some "0.1"
  ∧ pyGet (buildOrderParams ⟨"ETHUSDT", "SELL", "LIMIT", .num false 1 (-1),
      some (.num false 3000 0)⟩) "timeInForce" = some "GTC"
  ∧ place_order (fun _ => .ok (.obj []))
      ⟨"ETHUSDT", "SELL", "LIMIT", .num false 1 (-1), some (.num false 3000 0)⟩ =
      .ok (.obj []) := by
  have h := place_order_wire
    ⟨"ETHUSDT", "SELL", "LIMIT", .num false 1 (-1), some (.num false 3000 0)⟩
    (Or.inr rfl) (by simp)
  obtain ⟨d, _, _, htif⟩ := h.2.2.2.2.2.1 rfl
  exact ⟨by simpa using h.2.2.2.2.1, htif,
    h.2.2.2.2.2.2.1 (fun _ => .ok (.obj [])) [] rfl⟩

/-! ### Claim C10: `_request` never mutates the caller's mapping -/

/-- C10: the parameter phase of `_request` copies the caller-supplied
mapping before use (line 110), so the caller's dict is identical
before and after the call for signed and unsigned dispatches alike,
and the `timestamp`/`signature` entries added by signing appear only
in the wire copy, never in the caller's mapping. -/
theorem dispatch_preserves_caller_params :
    (∀ caller signed secret now,
      (dispatchPrepare caller signed secret now).callerAfter = caller)
  ∧ (∀ d secret now, "timestamp" ∉ d.map Prod.fst →
      "signature" ∉ d.map Prod.fst →
      (dispatchPrepare (some d) true secret now).wire =
        d ++ [("timestamp", toString now),
              ("signature", hmacSha256Hex secret
                (urlencode (d ++ [("timestamp", toString now)])))]
      ∧ "timestamp" ∉
          ((dispatchPrepare (some d) true secret now).callerAfter.getD []).map Prod.fst
      ∧ "signature" ∉
          ((dispatchPrepare (some d) true secret now).callerAfter.getD []).map Prod.fst)
  ∧ (∀ d secret now, (dispatchPrepare (some d) false secret now).wire = d) := by
  refine ⟨fun _ _ _ _ => rfl, ?_, fun _ _ _ => rfl⟩
  intro d secret now ht hs
  refine ⟨?_, by simpa using ht, by simpa using hs⟩
  show signParams secret now d = _
  exact signParams_absent secret now d ht hs

/-- Witness for C10: a concrete caller dict is untouched while the
wire copy gains exactly the two signing fields. -/
theorem dispatch_preserves_caller_params_witness :
    (dispatchPrepare (some [("symbol", "BTCUSDT")]) true "k" 7).wire =
      [("symbol", "BTCUSDT")] ++
        [("timestamp", toString 7),
         ("signature", hmacSha256Hex "k"
           (urlencode ([("symbol", "BTCUSDT")] ++ [("timestamp", toString 7)])))]
  ∧ (dispatchPrepare (some [("symbol", "BTCUSDT")]) true "k" 7).callerAfter =
      some [("symbol", "BTCUSDT")] :=
  ⟨(dispatch_preserves_caller_params.2.1 [("symbol", "BTCUSDT")] "k" 7
      (by decide) (by decide)).1,
   dispatch_preserves_caller_params.1 (some [("symbol", "BTCUSDT")]) true "k" 7⟩

/-! ### Injectivity of the canonical query-string encoding

The signature-difference half of the signing claim needs that distinct
parameter mappings produce distinct canonical strings.  This is proved
by exhibiting decoders: a percent-decoder inverting `quote_plus` at
the byte level, and a UTF-8 decoder inverting `utf8Bytes`. -/

/-- Value of an uppercase hex digit character. -/
def hexUVal (c : Char) : Option Nat :=
  if '0' ≤ c ∧ c ≤ '9' then some (c.toNat - 48)
  else if 'A' ≤ c ∧ c ≤ 'F' then some (c.toNat - 55)
  else none

/-- Read two hex digits off the front of a character stream. -/
def hexPair : List Char → Option (Nat × List Char)
  | h1 :: h2 :: r =>
    match hexUVal h1, hexUVal h2 with
    | some a, some b => some (16 * a + b, r)
    | _, _ => none
  | _ => none

/-- A successful `hexPair` consumes two characters. -/
theorem hexPair_length {r : List Char} {br : Nat × List Char}
    (h : hexPair r = some br) : br.2.length + 2 = r.length := by
  match r with
  | [] => simp [hexPair] at h
  | [x] => simp [hexPair] at h
  | h1 :: h2 :: t =>
    cases hu1 : hexUVal h1 with
    | none => simp [hexPair, hu1] at h
    | some a =>
      cases hu2 : hexUVal h2 with
      | none => simp [hexPair, hu1, hu2] at h
      | some b2 =>
        simp only [hexPair, hu1, hu2] at h
        obtain rfl : (16 * a + b2, t) = br := by simpa using h
        simp

/-- Left inverse of `quotePlusBytes`: maps an encoded character stream
back to the byte sequence it encodes. -/
def percentDecode : List Char → Option (List Nat)
  | [] => some []
  | c :: r =>
    if c = '%' then
      match hp : hexPair r with
      | some br =>
        have : br.2.length + 2 = r.length := hexPair_length hp
        (percentDecode br.2).map (fun l => br.1 :: l)
      | none => none
    else if c = '+' then (percentDecode r).map (fun l => 32 :: l)
    else (percentDecode r).map (fun l => c.toNat :: l)
termination_by l => l.length
decreasing_by
  all_goals simp_all [List.length_cons]
  all_goals omega

set_option maxRecDepth 16384 in
/-- Characters of a safe byte behave as the decoder expects. -/
theorem safeByte_char_facts : ∀ b : Fin 256, isSafeByte b.val = true →
    Char.ofNat b.val ≠ '%' ∧ Char.ofNat b.val ≠ '+' ∧
    (Char.ofNat b.val).toNat = b.val := by decide

/-- Uppercase hex digits decode back to their value and avoid the
query-string separators. -/
theorem hexDigit_facts : ∀ n : Fin 16,
    hexUVal (hexUpperDigit n.val) = some n.val ∧
    hexUpperDigit n.val ≠ '&' ∧ hexUpperDigit n.val ≠ '=' := by decide

set_option maxRecDepth 16384 in
/-- No byte encoding contains a `&` or `=` character. -/
theorem byteEnc_no_sep : ∀ b : Fin 256, ∀ c ∈ byteEnc b.val,
    c ≠ '&' ∧ c ≠ '=' := by decide

/-- The percent decoder undoes one byte encoding. -/
theorem percentDecode_byteEnc (b : Nat) (hb : b < 256) (r : List Char) :
    percentDecode (byteEnc b ++ r) = (percentDecode r).map (fun l => b :: l) := by
  by_cases hsafe : isSafeByte b = true
  · obtain ⟨h1, h2, h3⟩ := safeByte_char_facts ⟨b, hb⟩ hsafe
    have h1' : Char.ofNat b ≠ '%' := h1
    have h2' : Char.ofNat b ≠ '+' := h2
    have h3' : (Char.ofNat b).toNat = b := h3
    have hbe : byteEnc b = [Char.ofNat b] := by simp [byteEnc, hsafe]
    rw [hbe, List.cons_append, List.nil_append, percentDecode.eq_def]
    dsimp only
    rw [if_neg h1', if_neg h2', h3']
  · by_cases hsp : b = 32
    · subst hsp
      have hbe : byteEnc 32 = ['+'] := by decide
      rw [hbe, List.cons_append, List.nil_append, percentDecode.eq_def]
      dsimp only
      rw [if_neg (by decide), if_pos rfl]
    · have hlo : b / 16 < 16 := by omega
      have hhi : b % 16 < 16 := by omega
      obtain ⟨hv1, _, _⟩ := hexDigit_facts ⟨b / 16, hlo⟩
      obtain ⟨hv2, _, _⟩ := hexDigit_facts ⟨b % 16, hhi⟩
      have hv1' : hexUVal (hexUpperDigit (b / 16)) = some (b / 16) := hv1
      have hv2' : hexUVal (hexUpperDigit (b % 16)) = some (b % 16) := hv2
      have hhex : hexPair (hexUpperDigit (b / 16) :: hexUpperDigit (b % 16) :: r) =
          some (b, r) := by
        show (match hexUVal (hexUpperDigit (b / 16)),
            hexUVal (hexUpperDigit (b % 16)) with
          | some a, some b2 => some (16 * a + b2, r)
          | _, _ => none) = some (b, r)
        rw [hv1', hv2']
        dsimp only
        have hrec : 16 * (b / 16) + b % 16 = b := by omega
        rw [hrec]
      have hbe : byteEnc b =
          ['%', hexUpperDigit (b / 16), hexUpperDigit (b % 16)] := by
        simp [byteEnc, hsafe, hsp]
      rw [hbe, List.cons_append, List.cons_append, List.cons_append,
        List.nil_append, percentDecode.eq_def]
      dsimp only
      rw [if_pos rfl]
      split
      · next br heq =>
        rw [hhex] at heq
        obtain rfl : (b, r) = br := by simpa using heq
        rfl
      · next heq =>
        rw [hhex] at heq
        simp at heq

/-- The percent decoder undoes `quotePlusBytes` on genuine bytes. -/
theorem percentDecode_quotePlus (bs : List Nat) (h : ∀ b ∈ bs, b < 256) :
    percentDecode (quotePlusBytes bs) = some bs := by
  induction bs with
  | nil =>
    show percentDecode [] = some []
    rw [percentDecode.eq_def]
  | cons b t ih =>
    have hb : b < 256 := h b (by simp)
    have ht : ∀ x ∈ t, x < 256 := fun x hx => h x (by simp [hx])
    show percentDecode ((List.map byteEnc (b :: t)).flatten) = _
    rw [List.map_cons, List.flatten_cons, percentDecode_byteEnc b hb]
    rw [show (List.map byteEnc t).flatten = quotePlusBytes t from rfl, ih ht]
    rfl

/-- `quotePlusBytes` is injective on byte sequences. -/
theorem quotePlusBytes_inj {bs1 bs2 : List Nat}
    (h1 : ∀ b ∈ bs1, b < 256) (h2 : ∀ b ∈ bs2, b < 256)
    (h : quotePlusBytes bs1 = quotePlusBytes bs2) : bs1 = bs2 := by
  have hd := percentDecode_quotePlus bs1 h1
  rw [h, percentDecode_quotePlus bs2 h2] at hd
  simpa using hd.symm

/-- Every Unicode scalar value is below `0x110000`. -/
theorem charToNat_lt (c : Char) : c.toNat < 1114112 := by
  rcases c.valid with h | ⟨_, h⟩
  · exact lt_trans h (by norm_num)
  · exact h

/-- UTF-8 encodings consist of bytes. -/
theorem utf8Bytes_lt (c : Char) : ∀ b ∈ utf8Bytes c, b < 256 := by
  have h := charToNat_lt c
  intro b hb
  simp only [utf8Bytes] at hb
  split_ifs at hb with h1 h2 h3
  · rcases (by simpa using hb : b = c.toNat) with rfl
    omega
  · rcases (by simpa using hb : b = _ ∨ b = _) with rfl | rfl <;> omega
  · rcases (by simpa using hb : b = _ ∨ b = _ ∨ b = _) with rfl | rfl | rfl <;>
      omega
  · rcases (by simpa using hb : b = _ ∨ b = _ ∨ b = _ ∨ b = _) with
      rfl | rfl | rfl | rfl <;> omega

/-- A UTF-8 encoding is never empty. -/
theorem utf8Bytes_ne_nil (c : Char) : utf8Bytes c ≠ [] := by
  simp only [utf8Bytes]
  split_ifs <;> simp

/-- Left inverse of `utf8Bytes`: reads one scalar value off the front
of a byte stream. -/
def utf8DecodeOne : List Nat → Option (Nat × List Nat)
  | [] => none
  | b :: r =>
    if b < 0x80 then some (b, r)
    else if b < 0xC0 then none
    else if b < 0xE0 then
      match r with
      | b1 :: r1 => some ((b - 0xC0) * 64 + (b1 - 0x80), r1)
      | [] => none
    else if b < 0xF0 then
      match r with
      | b1 :: b2 :: r2 =>
        some (((b - 0xE0) * 64 + (b1 - 0x80)) * 64 + (b2 - 0x80), r2)
      | _ => none
    else
      match r with
      | b1 :: b2 :: b3 :: r3 =>
        some ((((b - 0xF0) * 64 + (b1 - 0x80)) * 64 + (b2 - 0x80)) * 64
          + (b3 - 0x80), r3)
      | _ => none

/-- The UTF-8 decoder undoes one character encoding. -/
theorem utf8DecodeOne_enc (c : Char) (r : List Nat) :
    utf8DecodeOne (utf8Bytes c ++ r) = some (c.toNat, r) := by
  have hv := charToNat_lt c
  simp only [utf8Bytes]
  split_ifs with h1 h2 h3
  · simp only [List.cons_append, List.nil_append]
    rw [utf8DecodeOne.eq_def]
    dsimp only
    rw [if_pos h1]
  · simp only [List.cons_append, List.nil_append]
    rw [utf8DecodeOne.eq_def]
    dsimp only
    rw [if_neg (by omega), if_neg (by omega), if_pos (by omega)]
    simp only [Option.some.injEq, Prod.mk.injEq]
    refine ⟨by omega, by trivial⟩
  · simp only [List.cons_append, List.nil_append]
    rw [utf8DecodeOne.eq_def]
    dsimp only
    rw [if_neg (by omega), if_neg (by omega), if_neg (by omega),
      if_pos (by omega)]
    simp only [Option.some.injEq, Prod.mk.injEq]
    refine ⟨by omega, by trivial⟩
  · simp only [List.cons_append, List.nil_append]
    rw [utf8DecodeOne.eq_def]
    dsimp only
    rw [if_neg (by omega), if_neg (by omega), if_neg (by omega),
      if_neg (by omega)]
    simp only [Option.some.injEq, Prod.mk.injEq]
    refine ⟨by omega, by trivial⟩

/-- Characters with equal scalar values are equal. -/
theorem char_toNat_inj {a b : Char} (h : a.toNat = b.toNat) : a = b :=
  Char.eq_of_val_eq (UInt32.ext h)

/-- Concatenated UTF-8 encodings determine the character list. -/
theorem utf8Chars_inj : ∀ l1 l2 : List Char,
    (l1.map utf8Bytes).flatten = (l2.map utf8Bytes).flatten → l1 = l2 := by
  intro l1
  induction l1 with
  | nil =>
    intro l2 h
    cases l2 with
    | nil => rfl
    | cons c t =>
      exfalso
      simp only [List.map_nil, List.flatten_nil, List.map_cons,
        List.flatten_cons] at h
      rcases he : utf8Bytes c with _ | ⟨x, xs⟩
      · exact utf8Bytes_ne_nil c he
      · rw [he] at h; simp at h
  | cons c1 t1 ih =>
    intro l2 h
    cases l2 with
    | nil =>
      exfalso
      simp only [List.map_nil, List.flatten_nil, List.map_cons,
        List.flatten_cons] at h
      rcases he : utf8Bytes c1 with _ | ⟨x, xs⟩
      · exact utf8Bytes_ne_nil c1 he
      · rw [he] at h; simp at h
    | cons c2 t2 =>
      simp only [List.map_cons, List.flatten_cons] at h
      have hd1 := utf8DecodeOne_enc c1 (t1.map utf8Bytes).flatten
      rw [h, utf8DecodeOne_enc c2 (t2.map utf8Bytes).flatten] at hd1
      simp only [Option.some.injEq, Prod.mk.injEq] at hd1
      obtain ⟨hn, hf⟩ := hd1
      rw [char_toNat_inj hn.symm, ih t2 hf.symm]

/-- All bytes of a string's UTF-8 rendering are bytes. -/
theorem strBytes_lt (s : String) : ∀ b ∈ strBytes s, b < 256 := by
  intro b hb
  obtain ⟨l, hl, hbl⟩ := List.mem_flatten.mp hb
  obtain ⟨c, _, rfl⟩ := List.mem_map.mp hl
  exact utf8Bytes_lt c b hbl

/-- `strBytes` is injective. -/
theorem strBytes_inj {s1 s2 : String} (h : strBytes s1 = strBytes s2) :
    s1 = s2 := by
  have hd := utf8Chars_inj s1.data s2.data h
  cases s1; cases s2; exact congrArg String.mk hd

/-- `quote_plus` composed with UTF-8 is injective on strings. -/
theorem quotePlus_str_inj {s1 s2 : String}
    (h : quotePlusBytes (strBytes s1) = quotePlusBytes (strBytes s2)) :
    s1 = s2 :=
  strBytes_inj (quotePlusBytes_inj (strBytes_lt s1) (strBytes_lt s2) h)

/-- Encoded bytes never contain the separators `&` and `=`. -/
theorem quotePlusBytes_no_sep (bs : List Nat) (h : ∀ b ∈ bs, b < 256) :
    ∀ c ∈ quotePlusBytes bs, c ≠ '&' ∧ c ≠ '=' := by
  intro c hc
  obtain ⟨l, hl, hcl⟩ := List.mem_flatten.mp hc
  obtain ⟨b, hb, rfl⟩ := List.mem_map.mp hl
  exact byteEnc_no_sep ⟨b, h b hb⟩ c hcl

/-- An encoded `key=value` pair never contains `&`. -/
theorem encPair_no_amp (k v : String) : ∀ c ∈ encPair k v, c ≠ '&' := by
  intro c hc
  unfold encPair at hc
  rcases List.mem_append.mp hc with h1 | h2
  · exact (quotePlusBytes_no_sep _ (strBytes_lt k) c h1).1
  · rcases List.mem_cons.mp h2 with rfl | h3
    · decide
    · exact (quotePlusBytes_no_sep _ (strBytes_lt v) c h3).1

/-- Two encoded pairs with the same key and equal encodings carry the
same value. -/
theorem encPair_inj_val {k v1 v2 : String}
    (h : encPair k v1 = encPair k v2) : v1 = v2 := by
  unfold encPair at h
  have h2 := List.append_cancel_left h
  injection h2 with _ h3
  exact quotePlus_str_inj h3

/-- Tail of `joinAmp` after its first element. -/
def ampTail (xs : List (List Char)) : List Char :=
  match xs with
  | [] => []
  | _ :: _ => '&' :: joinAmp xs

/-- Unfolding `joinAmp` one element at a time. -/
theorem joinAmp_cons (x : List Char) (xs : List (List Char)) :
    joinAmp (x :: xs) = x ++ ampTail xs := by
  cases xs <;> simp [joinAmp, ampTail]

/-- `ampTail` is empty or starts with the separator. -/
theorem ampTail_shape (xs : List (List Char)) :
    ampTail xs = [] ∨ ∃ t, ampTail xs = '&' :: t := by
  cases xs
  · exact Or.inl rfl
  · exact Or.inr ⟨_, rfl⟩

/-- Two chunks free of `&`, each followed by nothing or by an
`&`-led remainder, can only concatenate equally if they agree. -/
theorem sep_split : ∀ a b r1 r2 : List Char,
    (∀ c ∈ a, c ≠ '&') → (∀ c ∈ b, c ≠ '&') →
    (r1 = [] ∨ ∃ t, r1 = '&' :: t) → (r2 = [] ∨ ∃ t, r2 = '&' :: t) →
    a ++ r1 = b ++ r2 → a = b ∧ r1 = r2 := by
  intro a
  induction a with
  | nil =>
    intro b r1 r2 _ hb h1 _ h
    cases b with
    | nil => exact ⟨rfl, by simpa using h⟩
    | cons c bt =>
      exfalso
      rcases h1 with rfl | ⟨t, rfl⟩
      · simp at h
      · rw [List.nil_append, List.cons_append] at h
        injection h with hc _
        exact hb c (by simp) hc.symm
  | cons c1 at1 ih =>
    intro b r1 r2 ha hb h1 h2 h
    cases b with
    | nil =>
      exfalso
      rcases h2 with rfl | ⟨t, rfl⟩
      · simp at h
      · rw [List.nil_append, List.cons_append] at h
        injection h with hc _
        exact ha c1 (by simp) hc
    | cons c2 bt =>
      rw [List.cons_append, List.cons_append] at h
      injection h with hc ht
      subst hc
      obtain ⟨hab, hr⟩ := ih bt r1 r2 (fun x hx => ha x (by simp [hx]))
        (fun x hx => hb x (by simp [hx])) h1 h2 ht
      exact ⟨by rw [hab], hr⟩

/-- The canonical query string determines the mapping, given the keys:
two insertion-ordered mappings with the same key sequence and the same
`urlencode` rendering are equal. -/
theorem encQuery_inj : ∀ d1 d2 : List (String × String),
    d1.map Prod.fst = d2.map Prod.fst →
    joinAmp (d1.map (fun p => encPair p.1 p.2)) =
      joinAmp (d2.map (fun p => encPair p.1 p.2)) → d1 = d2 := by
  intro d1
  induction d1 with
  | nil =>
    intro d2 hk _
    cases d2 with
    | nil => rfl
    | cons p t => simp at hk
  | cons p1 t1 ih =>
    intro d2 hk h
    cases d2 with
    | nil => simp at hk
    | cons p2 t2 =>
      obtain ⟨k1, v1⟩ := p1
      obtain ⟨k2, v2⟩ := p2
      simp only [List.map_cons, List.cons.injEq] at hk
      obtain ⟨hkk, hkt⟩ := hk
      subst hkk
      rw [List.map_cons, List.map_cons, joinAmp_cons, joinAmp_cons] at h
      obtain ⟨hpair, hrest⟩ := sep_split _ _ _ _
        (encPair_no_amp k1 v1) (encPair_no_amp k1 v2)
        (ampTail_shape _) (ampTail_shape _) h
      have hv : v1 = v2 := encPair_inj_val hpair
      subst hv
      cases t1 with
      | nil =>
        cases t2 with
        | nil => rfl
        | cons q qt => simp [ampTail] at hrest
      | cons q1 qt1 =>
        cases t2 with
        | nil => simp [ampTail] at hrest
        | cons q2 qt2 =>
          simp only [List.map_cons, ampTail] at hrest
          injection hrest with _ hj
          rw [ih (q2 :: qt2) hkt (by simpa using hj)]

/-- Looking up the second of two entries appended to a dict whose
earlier entries avoid the key. -/
theorem pyGet_two_append (d : List (String × String)) (k1 v1 k2 v2 : String)
    (h : k2 ∉ (d ++ [(k1, v1)]).map Prod.fst) :
    pyGet (d ++ [(k1, v1), (k2, v2)]) k2 = some v2 := by
  have hget := pyGet_append_last (d ++ [(k1, v1)]) k2 v2 h
  rwa [List.append_assoc] at hget

/-! ### Claim C3: determinism and coverage of the signature -/

/-- C3: signing is deterministic — two runs on the same parameters,
secret and pinned timestamp give identical results — and the signature
is an HMAC-SHA256 over exactly the URL-encoding of the parameters in
insertion order with the timestamp appended and the signature field
excluded (the signature entry is added only after the MAC input is
fixed); consequently two parameter mappings over the same keys that
differ in some value yield different MAC inputs.  (Distinctness is
stated of the canonicalized strings being MACed: distinctness of the
256-bit digests themselves is not a theorem, since HMAC-SHA256 is not
literally injective.) -/
theorem signing_deterministic_and_canonical :
    (∀ (secret : String) (now : Nat) (d : List (String × String)) r1 r2,
        r1 = signParams secret now d →
        r2 = signParams secret now d → r1 = r2)
  ∧ (∀ (secret : String) (now : Nat) (d : List (String × String)),
      "timestamp" ∉ d.map Prod.fst →
      "signature" ∉ d.map Prod.fst →
      pyGet (signParams secret now d) "signature" =
        some (hmacSha256Hex secret
          (urlencode (d ++ [("timestamp", toString now)])))
      ∧ "signature" ∉ (d ++ [("timestamp", toString now)]).map Prod.fst)
  ∧ (∀ (now : Nat) (d1 d2 : List (String × String)),
      d1.map Prod.fst = d2.map Prod.fst → d1 ≠ d2 →
      urlencode (d1 ++ [("timestamp", toString now)]) ≠
        urlencode (d2 ++ [("timestamp", toString now)])) := by
  refine ⟨fun _ _ _ _ _ h1 h2 => h1.trans h2.symm, ?_, ?_⟩
  · intro secret now d ht hs
    have hsig : "signature" ∉ (d ++ [("timestamp", toString now)]).map Prod.fst := by
      rw [List.map_append]
      intro hc
      rcases List.mem_append.mp hc with h1 | h2
      · exact hs h1
      · simp at h2
    refine ⟨?_, hsig⟩
    rw [signParams_absent secret now d ht hs]
    exact pyGet_two_append d "timestamp" (toString now) "signature" _ hsig
  · intro now d1 d2 hk hne h
    have hklist : (d1 ++ [("timestamp", toString now)]).map Prod.fst =
        (d2 ++ [("timestamp", toString now)]).map Prod.fst := by
      rw [List.map_append, List.map_append, hk]
    have henc : joinAmp ((d1 ++ [("timestamp", toString now)]).map
        (fun p => encPair p.1 p.2)) =
        joinAmp ((d2 ++ [("timestamp", toString now)]).map
        (fun p => encPair p.1 p.2)) := by
      have hmk := congrArg String.data h
      simpa [urlencode] using hmk
    exact hne (List.append_cancel_right (encQuery_inj _ _ hklist henc))

/-- Witness for C3: the signature-coverage clause and the MAC-input
distinctness clause at concrete inputs. -/
theorem signing_deterministic_and_canonical_witness :
    pyGet (signParams "testsecret" 1700000000000 [("symbol", "BTCUSDT")])
        "signature" =
      some (hmacSha256Hex "testsecret"
        (urlencode ([("symbol", "BTCUSDT")] ++
          [("timestamp", toString 1700000000000)])))
  ∧ urlencode ([("symbol", "BTCUSDT")] ++
        [("timestamp", toString 1700000000000)]) ≠
      urlencode ([("symbol", "ETHUSDT")] ++
        [("timestamp", toString 1700000000000)]) :=
  ⟨(signing_deterministic_and_canonical.2.1 "testsecret" 1700000000000
      [("symbol", "BTCUSDT")] (by decide) (by decide)).1,
   signing_deterministic_and_canonical.2.2 1700000000000
     [("symbol", "BTCUSDT")] [("symbol", "ETHUSDT")] rfl (by decide)⟩

/-! ### Claim C4: effects of `_sign` -/

/-- C4 counterexample: `_sign` does NOT leave its input mapping alone —
it updates the dict in place (its docstring says "in-place"; after the
call the caller-visible mapping has grown by the two signing fields) —
and its timestamp comes from the ambient `time.time()` clock rather
than an injected argument, so the same input mapping signed at two
different ambient times yields different caller-visible mappings. -/
theorem sign_mutates_counterexample :
    signParams "testsecret" 1700000000000 [("symbol", "BTCUSDT")] ≠
      [("symbol", "BTCUSDT")]
  ∧ signParams "testsecret" 0 [("symbol", "BTCUSDT")] ≠
      signParams "testsecret" 1 [("symbol", "BTCUSDT")] := by
  constructor
  · rw [signParams_absent _ _ _ (by decide) (by decide)]
    intro h
    have hl := congrArg List.length h
    simp at hl
  · rw [signParams_absent _ _ _ (by decide) (by decide),
        signParams_absent _ _ _ (by decide) (by decide)]
    intro h
    have h1 := congrArg (fun l => l[1]?) h
    simp only [List.cons_append, List.nil_append, List.getElem?_cons_succ,
      List.getElem?_cons_zero] at h1
    have h2 : toString (0 : Nat) = toString (1 : Nat) := by
      injection h1 with h1'
      exact congrArg Prod.snd h1'
    exact absurd h2 (by decide)

/-- C4 as amended: `_sign` reads the ambient clock and mutates the
mapping in place, but once the timestamp is pinned its entire effect
is to append exactly the `timestamp` and `signature` entries —
deterministically, with no other side effect on the mapping, and no
I/O. -/
theorem sign_fixed_clock_effect :
    ∀ (secret : String) (now : Nat) (d : List (String × String)),
      "timestamp" ∉ d.map Prod.fst →
      "signature" ∉ d.map Prod.fst →
      (signParams secret now d =
        d ++ [("timestamp", toString now),
              ("signature", hmacSha256Hex secret
                (urlencode (d ++ [("timestamp", toString now)])))])
    ∧ (∀ r1 r2, r1 = signParams secret now d → r2 = signParams secret now d →
        r1 = r2) :=
  fun secret now d ht hs =>
    ⟨signParams_absent secret now d ht hs,
     fun _ _ h1 h2 => h1.trans h2.symm⟩

/-- Witness for C4's amended theorem at a concrete dict. -/
theorem sign_fixed_clock_effect_witness :
    signParams "k2" 42 [("x", "1")] =
      [("x", "1")] ++
        [("timestamp", toString 42),
         ("signature", hmacSha256Hex "k2"
           (urlencode ([("x", "1")] ++ [("timestamp", toString 42)])))] :=
  (sign_fixed_clock_effect "k2" 42 [("x", "1")] (by decide) (by decide)).1

end TradingBot
